import Mathlib

set_option maxRecDepth 10000
set_option linter.unusedVariables false

/- Shallow embedding of the komar_ai request-orchestration core:
   the response cache (src/lib/response-cache.ts), the provider health
   registry (src/lib/provider-manager.ts, whose file holds two revisions:
   the current one returning null from getBestAvailableProvider and a
   stale one returning the string 'mock'), and the chat route orchestrator
   (src/app/api/chat/route.ts).  JavaScript numbers are modelled as Nat:
   every quantity involved (timestamps, counters, sizes) is a non-negative
   integer far below 2^53, where JS number arithmetic is exact. -/

inductive Mode where
  | fast
  | deep
deriving DecidableEq, Repr

def Mode.str : Mode → String
  | .fast => "fast"
  | .deep => "deep"

/-- Response shape produced by the provider handlers in route.ts
(`ChatResponse`): content, optional thinking trace, mode, processing time
and model identifier. -/
structure ChatResponse where
  content : String
  thinking : Option String
  mode : Mode
  processingTime : Nat
  model : String
deriving DecidableEq, Repr

/- ---------- JavaScript string primitives used by the cache ---------- -/

/-- Lower-casing as used on this codebase's messages (ASCII letters and
the Cyrillic range А..Я plus Ё, which covers every string the repository
manipulates). -/
def jsLowerChar (c : Char) : Char :=
  if 65 ≤ c.toNat ∧ c.toNat ≤ 90 then Char.ofNat (c.toNat + 32)
  else if 1040 ≤ c.toNat ∧ c.toNat ≤ 1071 then Char.ofNat (c.toNat + 32)
  else if c.toNat = 1025 then Char.ofNat 1105
  else c

/-- Characters removed by JavaScript's String.prototype.trim (the common
ones: space, tab, line feeds, vertical tab, form feed, NBSP, BOM). -/
def jsWhitespaceChar (c : Char) : Bool :=
  c == ' ' || c == '\t' || c == '\n' || c == '\r' ||
  c.toNat == 11 || c.toNat == 12 || c.toNat == 160 || c.toNat == 65279

def jsTrimChars (s : List Char) : List Char :=
  ((s.dropWhile jsWhitespaceChar).reverse.dropWhile jsWhitespaceChar).reverse

def jsTrim (s : String) : String :=
  String.mk (jsTrimChars s.data)

def hexDigit (n : Nat) : Char :=
  if n < 10 then Char.ofNat (48 + n) else Char.ofNat (87 + n)

/-- JSON.stringify escaping of a single character inside a string value. -/
def jsonEscapeChar (c : Char) : List Char :=
  if c = '"' then ['\\', '"']
  else if c = '\\' then ['\\', '\\']
  else if c.toNat = 8 then ['\\', 'b']
  else if c.toNat = 9 then ['\\', 't']
  else if c.toNat = 10 then ['\\', 'n']
  else if c.toNat = 12 then ['\\', 'f']
  else if c.toNat = 13 then ['\\', 'r']
  else if c.toNat < 32 then
    ['\\', 'u', '0', '0', hexDigit (c.toNat / 16), hexDigit (c.toNat % 16)]
  else [c]

/-- JSON string literal: opening quote, escaped body, closing quote. -/
def jsonString (s : List Char) : List Char :=
  '"' :: (s.map jsonEscapeChar).flatten ++ ['"']

/-- UTF-8 bytes of one character (Buffer.from(str, 'utf8')). -/
def utf8Bytes (c : Char) : List Nat :=
  let n := c.toNat
  if n < 128 then [n]
  else if n < 2048 then [192 + n / 64, 128 + n % 64]
  else if n < 65536 then [224 + n / 4096, 128 + (n / 64) % 64, 128 + n % 64]
  else [240 + n / 262144, 128 + (n / 4096) % 64, 128 + (n / 64) % 64, 128 + n % 64]

def utf8Encode (s : List Char) : List Nat :=
  (s.map utf8Bytes).flatten

def b64Char (n : Nat) : Char :=
  if n < 26 then Char.ofNat (65 + n)
  else if n < 52 then Char.ofNat (97 + n - 26)
  else if n < 62 then Char.ofNat (48 + n - 52)
  else if n = 62 then '+'
  else '/'

def b64Chunk : List Nat → List Char
  | [a] => [b64Char (a / 4), b64Char (a % 4 * 16), '=', '=']
  | [a, b] => [b64Char (a / 4), b64Char (a % 4 * 16 + b / 16), b64Char (b % 16 * 4), '=']
  | [a, b, c] => [b64Char (a / 4), b64Char (a % 4 * 16 + b / 16),
                  b64Char (b % 16 * 4 + c / 64), b64Char (c % 64)]
  | _ => []

/-- Base64 of a byte list (buffer.toString('base64'), padding included). -/
def b64Encode : List Nat → List Char
  | [] => []
  | [a] => b64Chunk [a]
  | [a, b] => b64Chunk [a, b]
  | a :: b :: c :: rest => b64Chunk [a, b, c] ++ b64Encode rest

/-- Insert before the first element of strictly larger key: the insertion
step of a stable ascending insertion sort. -/
def insertKeyed {α : Type} (key : α → Nat) (e : α) : List α → List α
  | [] => [e]
  | x :: xs => if key e < key x then e :: x :: xs else x :: insertKeyed key e xs

/-- Stable ascending insertion sort by a numeric key.  Models the calls
to Array.prototype.sort with comparator `key(a) - key(b)` (stable per the
ECMAScript specification). -/
def sortKeyed {α : Type} (key : α → Nat) : List α → List α
  | [] => []
  | x :: xs => insertKeyed key x (sortKeyed key xs)

/- ---------- Response cache (src/lib/response-cache.ts) ---------- -/

namespace ResponseCache

structure CacheEntry where
  key : String
  data : ChatResponse
  timestamp : Nat
  expiresAt : Nat
  accessCount : Nat
  lastAccessed : Nat
deriving DecidableEq, Repr

structure CacheStats where
  totalEntries : Nat
  hitCount : Nat
  missCount : Nat
  hitRate : Rat
  totalSize : Nat
deriving DecidableEq, Repr

/-- Mutable fields of the ResponseCache class.  The JS Map is modelled as
an insertion-ordered association list whose keys are distinct. -/
structure CacheState where
  cache : List CacheEntry
  hitCount : Nat
  missCount : Nat
deriving DecidableEq, Repr

def maxEntries : Nat := 1000

def defaultTTL : Nat := 30 * 60 * 1000

/-- `generateCacheKey`: base64 of the UTF-8 of
JSON.stringify on the lower-cased trimmed message, the mode and
`provider || 'any'`, with the characters +, / and = stripped. -/
def generateCacheKey (message : String) (mode : Mode) (provider : Option String) : String :=
  let normalized := jsTrimChars (message.data.map jsLowerChar)
  let providerStr : String := match provider with
    | some p => if p = "" then "any" else p
    | none => "any"
  let json : List Char :=
    '\x7b' :: jsonString "message".data ++ [':'] ++ jsonString normalized
    ++ [','] ++ jsonString "mode".data ++ [':'] ++ jsonString mode.str.data
    ++ [','] ++ jsonString "provider".data ++ [':'] ++ jsonString providerStr.data
    ++ ['\x7d']
  String.mk ((b64Encode (utf8Encode json)).filter
    (fun c => c != '+' && c != '/' && c != '='))

/- Volatile-content regular expressions of shouldCache, modelled as
substring / token-sequence scanners with the same semantics on the
alphabets the repository uses. -/

inductive PatTok where
  | digit
  | lit (c : Char)
deriving DecidableEq, Repr

def tokMatch : PatTok → Char → Bool
  | .digit, c => c.isDigit
  | .lit x, c => c == x

def matchHere : List PatTok → List Char → Bool
  | [], _ => true
  | _ :: _, [] => false
  | t :: ts, c :: cs => tokMatch t c && matchHere ts cs

/-- Unanchored scan: does the token pattern match at some position? -/
def scanPat (p : List PatTok) : List Char → Bool
  | [] => matchHere p []
  | c :: cs => matchHere p (c :: cs) || scanPat p cs

def litToks (s : String) : List PatTok :=
  s.data.map PatTok.lit

/-- Case-insensitive substring test (the /i flag; patterns are written in
lower case, the subject is lower-cased before scanning). -/
def containsCI (subject : List Char) (word : String) : Bool :=
  scanPat (litToks word) (subject.map jsLowerChar)

def timeToks : List PatTok :=
  [.digit, .digit, .lit ':', .digit, .digit]

def dotDateToks : List PatTok :=
  [.digit, .digit, .lit '.', .digit, .digit, .lit '.', .digit, .digit, .digit, .digit]

def isoDateToks : List PatTok :=
  [.digit, .digit, .digit, .digit, .lit '-', .digit, .digit, .lit '-', .digit, .digit]

/-- The three timePatterns of shouldCache: Russian volatile words (with
/i), digit time/date shapes, Russian first-person statements (with /i). -/
def volatilePattern (s : List Char) : Bool :=
  (containsCI s "сейчас" || containsCI s "сегодня" || containsCI s "вчера" ||
   containsCI s "завтра" || containsCI s "время" || containsCI s "дата") ||
  (scanPat timeToks s || scanPat dotDateToks s || scanPat isoDateToks s) ||
  (containsCI s "меня зовут" || containsCI s "мое имя" ||
   containsCI s "я работаю" || containsCI s "мой")

/-- `shouldCache`: false outside the [3, 1000] length bound or when some
volatile pattern matches. -/
def shouldCache (message : String) (mode : Mode) : Bool :=
  if message.length < 3 ∨ 1000 < message.length then false
  else !volatilePattern message.data

def mapFind (cache : List CacheEntry) (k : String) : Option CacheEntry :=
  cache.find? (fun e => e.key == k)

def mapDelete (cache : List CacheEntry) (k : String) : List CacheEntry :=
  cache.filter (fun e => e.key != k)

/-- JS Map.set: replace in place when the key exists, append otherwise. -/
def mapSet (cache : List CacheEntry) (e : CacheEntry) : List CacheEntry :=
  if cache.any (fun o => o.key == e.key) then
    cache.map (fun o => if o.key == e.key then e else o)
  else cache ++ [e]

/-- `get`: miss when shouldCache is false (state untouched), miss with
deletion when the entry is lazily expired (now > expiresAt), otherwise a
hit that bumps accessCount/lastAccessed and the hit counter. -/
def get (s : CacheState) (now : Nat) (message : String) (mode : Mode)
    (provider : Option String) : Option ChatResponse × CacheState :=
  if shouldCache message mode = false then (none, s)
  else
    let k := generateCacheKey message mode provider
    match mapFind s.cache k with
    | none => (none, { s with missCount := s.missCount + 1 })
    | some e =>
      if e.expiresAt < now then
        (none, { s with cache := mapDelete s.cache k, missCount := s.missCount + 1 })
      else
        let e' := { e with accessCount := e.accessCount + 1, lastAccessed := now }
        (some e.data, { s with cache := mapSet s.cache e', hitCount := s.hitCount + 1 })

def score (e : CacheEntry) : Nat :=
  e.lastAccessed + e.accessCount * 60000

/-- Stable ascending sort by score, matching the comparator
`scoreA - scoreB`. -/
def sortByScore : List CacheEntry → List CacheEntry :=
  sortKeyed score

/-- `cleanup`: delete entries with now > expiresAt; if the survivors still
fill ≥ 90% of maxEntries (1000 * 0.9 = 900 exactly), delete the
Math.floor(length * 0.25) = length / 4 lowest-scoring ones.  The survivor
set is the code's; only the (unobservable) Map insertion order differs. -/
def cleanup (now : Nat) (cache : List CacheEntry) : List CacheEntry :=
  let alive := cache.filter (fun e => decide (now ≤ e.expiresAt))
  if maxEntries * 9 / 10 ≤ alive.length then
    (sortByScore alive).drop (alive.length / 4)
  else alive

/-- `set`: no-op when shouldCache is false; cleanup first when the store
is at or above maxEntries; `ttl || defaultTTL` treats both undefined and
0 as absent. -/
def set (s : CacheState) (now : Nat) (message : String) (mode : Mode)
    (d : ChatResponse) (provider : Option String) (ttl : Option Nat) : CacheState :=
  if shouldCache message mode = false then s
  else
    let cache1 := if maxEntries ≤ s.cache.length then cleanup now s.cache else s.cache
    let k := generateCacheKey message mode provider
    let actualTTL := match ttl with
      | some t => if t = 0 then defaultTTL else t
      | none => defaultTTL
    let e : CacheEntry :=
      { key := k, data := d, timestamp := now, expiresAt := now + actualTTL,
        accessCount := 1, lastAccessed := now }
    { s with cache := mapSet cache1 e }

def natChars (n : Nat) : List Char :=
  Nat.toDigits 10 n

/-- JSON.stringify of a cached response object, for the approximate size
computation (property order as constructed by the route handlers). -/
def jsonOfResponse (r : ChatResponse) : List Char :=
  '\x7b' :: jsonString "content".data ++ [':'] ++ jsonString r.content.data
  ++ [','] ++ jsonString "mode".data ++ [':'] ++ jsonString r.mode.str.data
  ++ [','] ++ jsonString "processingTime".data ++ [':'] ++ natChars r.processingTime
  ++ [','] ++ jsonString "model".data ++ [':'] ++ jsonString r.model.data
  ++ (match r.thinking with
      | none => []
      | some t => [','] ++ jsonString "thinking".data ++ [':'] ++ jsonString t.data)
  ++ ['\x7d']

def jsonOfEntry (e : CacheEntry) : List Char :=
  '\x7b' :: jsonString "key".data ++ [':'] ++ jsonString e.key.data
  ++ [','] ++ jsonString "data".data ++ [':'] ++ jsonOfResponse e.data
  ++ [','] ++ jsonString "timestamp".data ++ [':'] ++ natChars e.timestamp
  ++ [','] ++ jsonString "expiresAt".data ++ [':'] ++ natChars e.expiresAt
  ++ [','] ++ jsonString "accessCount".data ++ [':'] ++ natChars e.accessCount
  ++ [','] ++ jsonString "lastAccessed".data ++ [':'] ++ natChars e.lastAccessed
  ++ ['\x7d']

/-- `calculateCacheSize`: JSON length of each entry times 2 (UTF-16). -/
def calculateCacheSize (s : CacheState) : Nat :=
  (s.cache.map (fun e => (jsonOfEntry e).length * 2)).sum

def getStats (s : CacheState) : CacheStats :=
  let totalRequests := s.hitCount + s.missCount
  { totalEntries := s.cache.length
    hitCount := s.hitCount
    missCount := s.missCount
    hitRate := if 0 < totalRequests then ((s.hitCount : Rat) / (totalRequests : Rat)) * 100 else 0
    totalSize := calculateCacheSize s }

def clear (_s : CacheState) : CacheState :=
  { cache := [], hitCount := 0, missCount := 0 }

def warmupResponse (content : String) (mode : Mode) : ChatResponse :=
  { content := content, thinking := none, mode := mode,
    processingTime := 100, model := "Cache: Prewarmed" }

/-- `warmup`: the four canonical Russian question/answer pairs, stored
with provider scope 'cache' and a 24h TTL. -/
def warmup (s : CacheState) (now : Nat) : CacheState :=
  let day := 24 * 60 * 60 * 1000
  let s1 := set s now "Привет" .fast
    (warmupResponse "Привет! Я Komair, ваш ИИ-ассистент. Как дела?" .fast) (some "cache") (some day)
  let s2 := set s1 now "Как дела?" .fast
    (warmupResponse "У меня всё отлично! Готов помочь вам с любыми вопросами." .fast) (some "cache") (some day)
  let s3 := set s2 now "Что ты умеешь?" .fast
    (warmupResponse "Я могу отвечать на вопросы, помогать с анализом, объяснять сложные темы и многое другое!" .fast) (some "cache") (some day)
  set s3 now "Спасибо" .fast
    (warmupResponse "Пожалуйста! Всегда рад помочь." .fast) (some "cache") (some day)

def emptyCache : CacheState :=
  { cache := [], hitCount := 0, missCount := 0 }

/-- The module-level singleton is created empty and warmed at load time. -/
def initialCache (now : Nat) : CacheState :=
  warmup emptyCache now

end ResponseCache

/- ---------- Provider health registry (src/lib/provider-manager.ts) ---------- -/

namespace ProviderManager

structure ProviderConfig where
  name : String
  priority : Nat
  enabled : Bool
  maxRetries : Nat
  timeout : Nat
  hasHealthCheck : Bool
deriving DecidableEq, Repr

structure ProviderStatus where
  name : String
  isHealthy : Bool
  lastError : Option String
  lastCheck : Nat
  consecutiveFailures : Nat
deriving DecidableEq, Repr

/-- Mutable fields of the ProviderManager class: the two string-keyed
Maps (insertion-ordered association lists with distinct keys) and the
fallback order, fixed at construction. -/
structure RegState where
  providers : List (String × ProviderConfig)
  status : List (String × ProviderStatus)
  fallbackOrder : List String
deriving DecidableEq, Repr

def lookup {α : Type} (m : List (String × α)) (k : String) : Option α :=
  (m.find? (fun p => p.1 == k)).map (fun p => p.2)

/-- Map.set on a string-keyed map: replace in place or append. -/
def mapUpdate {α : Type} (m : List (String × α)) (k : String) (v : α) :
    List (String × α) :=
  if m.any (fun p => p.1 == k) then
    m.map (fun p => if p.1 = k then (k, v) else p)
  else m ++ [(k, v)]

/-- Presence of the three credential environment variables consulted by
initializeProviders (GROQ_API_KEY, TOGETHER_API_KEY, COHERE_API_KEY). -/
structure Env where
  groqKey : Bool
  togetherKey : Bool
  cohereKey : Bool
deriving DecidableEq, Repr

/-- The hard-coded configs array of initializeProviders (current
revision: groq and huggingface get maxRetries 5; no config installs a
custom healthCheck). -/
def configs (env : Env) : List ProviderConfig :=
  [ { name := "groq", priority := 1, enabled := env.groqKey,
      maxRetries := 5, timeout := 45000, hasHealthCheck := false },
    { name := "huggingface", priority := 2, enabled := true,
      maxRetries := 5, timeout := 90000, hasHealthCheck := false },
    { name := "together", priority := 3, enabled := env.togetherKey,
      maxRetries := 2, timeout := 45000, hasHealthCheck := false },
    { name := "cohere", priority := 4, enabled := env.cohereKey,
      maxRetries := 2, timeout := 30000, hasHealthCheck := false },
    { name := "ollama", priority := 5, enabled := true,
      maxRetries := 1, timeout := 120000, hasHealthCheck := false },
    { name := "mock", priority := 999, enabled := false,
      maxRetries := 1, timeout := 5000, hasHealthCheck := false } ]

/-- Stable ascending sort by priority, matching the comparator
`a.priority - b.priority`. -/
def sortByPriority : List ProviderConfig → List ProviderConfig :=
  sortKeyed (fun c => c.priority)

/-- `initializeProviders`, run once by the constructor: both maps are
seeded from the configs array (every provider healthy with zero
consecutive failures) and fallbackOrder is the enabled configs sorted
ascending by priority. -/
def initFromConfigs (cfgs : List ProviderConfig) (now : Nat) : RegState :=
  { providers := cfgs.map (fun c => (c.name, c))
    status := cfgs.map (fun c =>
      (c.name, { name := c.name, isHealthy := true, lastError := none,
                 lastCheck := now, consecutiveFailures := 0 }))
    fallbackOrder := (sortByPriority (cfgs.filter (fun c => c.enabled))).map (fun c => c.name) }

def initState (env : Env) (now : Nat) : RegState :=
  initFromConfigs (configs env) now

/-- The loop body shared by getBestAvailableProvider and the scan part of
getNextProvider: first name whose status is healthy and whose config is
enabled (`status?.isHealthy && config?.enabled`). -/
def healthyAndEnabled (s : RegState) (n : String) : Bool :=
  (match lookup s.status n with
   | some st => st.isHealthy
   | none => false) &&
  (match lookup s.providers n with
   | some c => c.enabled
   | none => false)

def bestAux (s : RegState) : List String → Option String
  | [] => none
  | n :: rest => if healthyAndEnabled s n then some n else bestAux s rest

/-- `getBestAvailableProvider` (current revision, lines 98-116): first
healthy and enabled entry of fallbackOrder, null when there is none. -/
def getBestAvailableProvider (s : RegState) : Option String :=
  bestAux s s.fallbackOrder

def bestAuxV2 (s : RegState) : List String → String
  | [] => "mock"
  | n :: rest => if healthyAndEnabled s n then n else bestAuxV2 s rest

/-- `getBestAvailableProvider` (stale second revision, lines 349-361 of
the concatenated file): identical scan but the string 'mock' instead of
null when every entry is unhealthy or disabled. -/
def getBestAvailableProviderV2 (s : RegState) : String :=
  bestAuxV2 s s.fallbackOrder

/-- JS Array.prototype.indexOf: index of the first occurrence, none
standing for -1. -/
def idxOf (x : String) : List String → Option Nat
  | [] => none
  | y :: ys => if y == x then some 0 else (idxOf x ys).map (fun i => i + 1)

/-- `getNextProvider`: null when currentProvider is absent or last in
fallbackOrder, otherwise the first healthy and enabled name strictly
after its position. -/
def getNextProvider (s : RegState) (current : String) : Option String :=
  match idxOf current s.fallbackOrder with
  | none => none
  | some i =>
    if s.fallbackOrder.length ≤ i + 1 then none
    else bestAux s (s.fallbackOrder.drop (i + 1))

/-- Specification-side view of "the entries strictly after the first
occurrence of p": the tail of the list past p, empty when p is absent.
The theorem on getNextProvider identifies the code's index arithmetic
with a scan of this list. -/
def tailAfter (l : List String) (p : String) : List String :=
  match l with
  | [] => []
  | y :: ys => if y == p then ys else tailAfter ys p

/-- Priority recorded in the config map (0 for an unknown name). -/
def prioOf (s : RegState) (n : String) : Nat :=
  match lookup s.providers n with
  | some c => c.priority
  | none => 0

/-- maxRetries recorded in the config map (0 for an unknown name). -/
def retriesOf (s : RegState) (n : String) : Nat :=
  match lookup s.providers n with
  | some c => c.maxRetries
  | none => 0

/-- `canRetryWithProvider`: attemptCount below the config's maxRetries
and the provider still marked healthy; false for an unknown provider. -/
def canRetryWithProvider (s : RegState) (n : String) (attemptCount : Nat) : Bool :=
  match lookup s.providers n, lookup s.status n with
  | some cfg, some st => decide (attemptCount < cfg.maxRetries) && st.isHealthy
  | _, _ => false

/-- `markProviderAsUnhealthy`: increment consecutiveFailures, record the
error and check time; drop isHealthy only when the incremented count has
reached the config's maxRetries.  (The setTimeout recovery callbacks it
schedules are modelled as the separate recovery operation below.) -/
def markProviderAsUnhealthy (s : RegState) (n error : String) (now : Nat) : RegState :=
  match lookup s.status n, lookup s.providers n with
  | some st, some cfg =>
    let cf := st.consecutiveFailures + 1
    let st' : ProviderStatus :=
      { st with consecutiveFailures := cf, lastError := some error, lastCheck := now,
                isHealthy := if cfg.maxRetries ≤ cf then false else st.isHealthy }
    { s with status := mapUpdate s.status n st' }
  | _, _ => s

/-- `markProviderAsHealthy`: restore health, clear lastError, reset
consecutiveFailures. -/
def markProviderAsHealthy (s : RegState) (n : String) (now : Nat) : RegState :=
  match lookup s.status n with
  | some st =>
    let st' : ProviderStatus :=
      { st with isHealthy := true, lastError := none, lastCheck := now,
                consecutiveFailures := 0 }
    { s with status := mapUpdate s.status n st' }
  | none => s

/-- `attemptProviderRecovery` (current revision): no-op for a missing or
disabled config; apply a configured health check's boolean verdict;
otherwise decrement consecutiveFailures by 2 (floored at 0,
Math.max(0, x - 2)) and restore health once at most 1 remains. -/
def attemptProviderRecovery (s : RegState) (n : String) (now : Nat)
    (healthCheckResult : Bool) : RegState :=
  match lookup s.providers n with
  | none => s
  | some cfg =>
    if cfg.enabled = false then s
    else if cfg.hasHealthCheck then
      if healthCheckResult then markProviderAsHealthy s n now else s
    else
      match lookup s.status n with
      | none => s
      | some st =>
        let cf := st.consecutiveFailures - 2
        let s' := { s with status := mapUpdate s.status n { st with consecutiveFailures := cf } }
        if cf ≤ 1 then markProviderAsHealthy s' n now else s'

/-- `getProvidersStatus`: the status map's values in insertion order. -/
def getProvidersStatus (s : RegState) : List ProviderStatus :=
  s.status.map (fun p => p.2)

/-- One registry mutation.  markUnhealthy and markHealthy are driven by
request outcomes; recovery is the deferred probe markUnhealthy schedules,
carrying the (hypothetical) custom health check verdict. -/
inductive RegOp where
  | markUnhealthy (name error : String) (now : Nat)
  | markHealthy (name : String) (now : Nat)
  | recovery (name : String) (now : Nat) (healthCheckResult : Bool)
deriving DecidableEq, Repr

def applyOp (s : RegState) : RegOp → RegState
  | .markUnhealthy n e t => markProviderAsUnhealthy s n e t
  | .markHealthy n t => markProviderAsHealthy s n t
  | .recovery n t b => attemptProviderRecovery s n t b

def applyOps (ops : List RegOp) (s : RegState) : RegState :=
  ops.foldl applyOp s

end ProviderManager

/- ---------- Request orchestrator (src/app/api/chat/route.ts POST) ---------- -/

namespace ChatRoute

open ProviderManager

/-- Terminal outcome of the POST handler.  validationError is the 400
branch; success is the 200 JSON of a ChatResponse (served from cache or
from a provider); exhausted is the 503 branch carrying the last error and
the providers-status snapshot of its diagnostics; fuelOut is the
impossible case of the fuel-indexed loop running out. -/
inductive PostResult where
  | validationError (msg : String)
  | success (resp : ChatResponse)
  | exhausted (lastError : Option String) (snapshot : List ProviderStatus)
  | fuelOut
deriving DecidableEq, Repr

structure PostOutcome where
  result : PostResult
  reg : RegState
  cache : ResponseCache.CacheState
  /-- provider name of each dispatch attempt, in order -/
  trace : List String
deriving DecidableEq, Repr

/-- A provider adapter behaviour: for the i-th dispatch of the request
(0-based) against a given provider, either a normalized response or a
thrown error message.  Quantifying over this function covers every
pattern of success and failure of executeProviderRequest. -/
def Adapter : Type :=
  Nat → String → Except String ChatResponse

def exhaustedOutcome (reg : RegState) (cache : ResponseCache.CacheState)
    (lastError : Option String) (trace : List String) : PostOutcome :=
  { result := .exhausted lastError (getProvidersStatus reg), reg := reg,
    cache := cache, trace := trace }

/-- The while loop of POST (route.ts lines 63-103).  The loop condition
`currentProvider && currentProvider !== 'mock'` exits on null or 'mock';
the body increments attemptCount, dispatches, and on success marks the
provider healthy, writes the cache (scoped to the provider) and returns;
on failure it marks the provider unhealthy, retries the same provider
while canRetryWithProvider allows, otherwise switches to getNextProvider
with attemptCount reset to 0, breaking to the 503 branch when none is
left.  Fuel only bounds the recursion; the termination theorem shows a
sufficient fuel is never consumed. -/
def runLoop (fuel : Nat) (reg : RegState) (cache : ResponseCache.CacheState)
    (current : Option String) (attemptCount : Nat) (lastError : Option String)
    (adapter : Adapter) (message : String) (mode : Mode) (now : Nat)
    (trace : List String) : PostOutcome :=
  match current with
  | none => exhaustedOutcome reg cache lastError trace
  | some p =>
    if p = "mock" then exhaustedOutcome reg cache lastError trace
    else
      match fuel with
      | 0 => { result := .fuelOut, reg := reg, cache := cache, trace := trace }
      | fuel' + 1 =>
        let a := attemptCount + 1
        match adapter trace.length p with
        | .ok resp =>
          let reg' := markProviderAsHealthy reg p now
          let cache' := ResponseCache.set cache now message mode resp (some p) none
          { result := .success resp, reg := reg', cache := cache', trace := trace ++ [p] }
        | .error e =>
          let reg' := markProviderAsUnhealthy reg p e now
          if canRetryWithProvider reg' p a then
            runLoop fuel' reg' cache (some p) a (some e) adapter message mode now (trace ++ [p])
          else
            match getNextProvider reg' p with
            | some q =>
              runLoop fuel' reg' cache (some q) 0 (some e) adapter message mode now (trace ++ [p])
            | none => exhaustedOutcome reg' cache (some e) (trace ++ [p])

/-- The POST handler: validate the message (`!message || !message.trim()`
rejects exactly the strings that trim to empty), consult the cache with
no provider scope, then enter the retry/fallback loop starting from
getBestAvailableProvider. -/
def runPost (fuel : Nat) (reg : RegState) (cache : ResponseCache.CacheState)
    (adapter : Adapter) (message : String) (mode : Mode) (now : Nat) : PostOutcome :=
  if jsTrim message = "" then
    { result := .validationError "Сообщение не может быть пустым",
      reg := reg, cache := cache, trace := [] }
  else
    match ResponseCache.get cache now message mode none with
    | (some resp, cache') =>
      { result := .success resp, reg := reg, cache := cache', trace := [] }
    | (none, cache') =>
      runLoop fuel reg cache' (getBestAvailableProvider reg) 0 none adapter message mode now []

/-- Fuel that the termination theorem proves sufficient: one more than
the sum of maxRetries over the whole fallback order. -/
def sufficientFuel (reg : RegState) : Nat :=
  (reg.fallbackOrder.map (retriesOf reg)).sum + 1

/-- Termination measure of the while loop: maxRetries of the current
provider plus those of every provider after it in fallbackOrder, minus
the attempts already spent on the current provider. -/
def loopMeasure (reg : RegState) (current : Option String) (attemptCount : Nat) : Nat :=
  match current with
  | none => 0
  | some p => retriesOf reg p + ((tailAfter reg.fallbackOrder p).map (retriesOf reg)).sum - attemptCount

end ChatRoute

/- ---------- Concrete states used by the scenario claims ---------- -/

open ProviderManager ResponseCache ChatRoute

/-- Environment in which all three credential variables are present. -/
def envAll : Env :=
  { groqKey := true, togetherKey := true, cohereKey := true }

def reg0 : RegState :=
  initState envAll 0

/-- Scenario A registry: exactly two enabled healthy providers,
X(priority 1, maxRetries 2) and Y(priority 2, maxRetries 1), built by the
initializer the code uses for its own configs array. -/
def cfgX : ProviderConfig :=
  { name := "X", priority := 1, enabled := true, maxRetries := 2,
    timeout := 1000, hasHealthCheck := false }

def cfgY : ProviderConfig :=
  { name := "Y", priority := 2, enabled := true, maxRetries := 1,
    timeout := 1000, hasHealthCheck := false }

def regXY : RegState :=
  initFromConfigs [cfgX, cfgY] 0

/-- Adapter behaviour in which every dispatch fails, with arbitrary error
messages e1, e2, e3 for the request's first three attempts. -/
def failingAdapter (e1 e2 e3 : String) : Adapter :=
  fun i _ => .error (if i = 0 then e1 else if i = 1 then e2 else e3)

def alwaysFail : Adapter :=
  fun _ _ => .error "boom"

def scenarioAOutcome (e1 e2 e3 : String) : PostOutcome :=
  runPost (sufficientFuel regXY) regXY emptyCache (failingAdapter e1 e2 e3)
    "hello scenario" Mode.fast 50

/-- The response the groq handler returns in the cache-round-trip run. -/
def groqResponse : ChatResponse :=
  { content := "answer", thinking := none, mode := .fast,
    processingTime := 0, model := "Groq: llama-3.1-8b-instant" }

def okAdapter : Adapter :=
  fun _ _ => .ok groqResponse

/-- First issue of the request "hello world" against the warmed-up cache
and the fresh registry: groq answers at once. -/
def firstOutcome : PostOutcome :=
  runPost (sufficientFuel reg0) reg0 (initialCache 0) okAdapter "hello world" Mode.fast 100

/-- Second issue of the identical request well within the 30-minute TTL,
starting from the state the first one left behind. -/
def secondOutcome : PostOutcome :=
  runPost (sufficientFuel firstOutcome.reg) firstOutcome.reg firstOutcome.cache
    okAdapter "hello world" Mode.fast 200

/-- Enough failure reports to drive every enabled provider of reg0
unhealthy (maxRetries many for each). -/
def killOps : List RegOp :=
  List.replicate 5 (RegOp.markUnhealthy "groq" "e" 1) ++
  List.replicate 5 (RegOp.markUnhealthy "huggingface" "e" 1) ++
  List.replicate 2 (RegOp.markUnhealthy "together" "e" 1) ++
  List.replicate 2 (RegOp.markUnhealthy "cohere" "e" 1) ++
  [RegOp.markUnhealthy "ollama" "e" 1]

def regDead : RegState :=
  applyOps killOps reg0

/-- Placeholder payload for the eviction counterexample entries. -/
def cexResponse : ChatResponse :=
  { content := "c", thinking := none, mode := .fast, processingTime := 0, model := "m" }

/-- Store of 1000 entries at time 100: entries 0..100 are strictly
expired (expiresAt 50 < 100), entry 101 sits exactly on the boundary
(expiresAt 100 = now), entries 102..999 are live (expiresAt 200), so
after expiry deletion 899 survivors remain — below the 900 score-eviction
threshold. -/
def mkBigEntry (i : Nat) : CacheEntry :=
  { key := "k" ++ String.mk (Nat.toDigits 10 i), data := cexResponse, timestamp := 0,
    expiresAt := if i < 101 then 50 else if i = 101 then 100 else 200,
    accessCount := 1, lastAccessed := 0 }

def bigState : CacheState :=
  { cache := (List.range 1000).map mkBigEntry, hitCount := 0, missCount := 0 }

/- ---------- Generic lemmas about the keyed insertion sort ---------- -/

theorem insertKeyed_perm {α : Type} (key : α → Nat) (e : α) (l : List α) :
    (insertKeyed key e l).Perm (e :: l) := by
  induction l with
  | nil => simp [insertKeyed]
  | cons x xs ih =>
    simp only [insertKeyed]
    split
    · exact List.Perm.refl _
    · exact (ih.cons x).trans (List.Perm.swap e x xs)

theorem sortKeyed_perm {α : Type} (key : α → Nat) (l : List α) :
    (sortKeyed key l).Perm l := by
  induction l with
  | nil => simp [sortKeyed]
  | cons x xs ih =>
    exact (insertKeyed_perm key x (sortKeyed key xs)).trans (ih.cons x)

theorem sortKeyed_length {α : Type} (key : α → Nat) (l : List α) :
    (sortKeyed key l).length = l.length :=
  (sortKeyed_perm key l).length_eq

theorem mem_sortKeyed {α : Type} (key : α → Nat) (l : List α) (x : α) :
    x ∈ sortKeyed key l ↔ x ∈ l :=
  (sortKeyed_perm key l).mem_iff

theorem insertKeyed_sorted {α : Type} (key : α → Nat) (e : α) (l : List α)
    (h : l.Pairwise (fun a b => key a ≤ key b)) :
    (insertKeyed key e l).Pairwise (fun a b => key a ≤ key b) := by
  induction l with
  | nil => simp [insertKeyed]
  | cons x xs ih =>
    rcases List.pairwise_cons.mp h with ⟨hx, hxs⟩
    simp only [insertKeyed]
    split
    · rename_i hlt
      refine List.pairwise_cons.mpr ⟨?_, h⟩
      intro b hb
      rcases List.mem_cons.mp hb with hb | hb
      · subst hb
        exact Nat.le_of_lt hlt
      · exact Nat.le_trans (Nat.le_of_lt hlt) (hx _ hb)
    · rename_i hge
      refine List.pairwise_cons.mpr ⟨?_, ih hxs⟩
      intro b hb
      rcases List.mem_cons.mp ((insertKeyed_perm key e xs).mem_iff.mp hb) with hb | hb
      · subst hb
        exact Nat.le_of_not_lt hge
      · exact hx _ hb

theorem sortKeyed_sorted {α : Type} (key : α → Nat) (l : List α) :
    (sortKeyed key l).Pairwise (fun a b => key a ≤ key b) := by
  induction l with
  | nil => simp [sortKeyed]
  | cons x xs ih => exact insertKeyed_sorted key x _ ih

theorem pairwise_take_drop {α : Type} {R : α → α → Prop} (l : List α)
    (h : l.Pairwise R) (n : Nat) :
    ∀ x ∈ l.take n, ∀ y ∈ l.drop n, R x y := by
  have hsplit : l.take n ++ l.drop n = l := List.take_append_drop n l
  rw [← hsplit] at h
  exact (List.pairwise_append.mp h).2.2

/- ---------- Cache lemmas ---------- -/

theorem get_of_not_cacheable (s : CacheState) (now : Nat) (message : String)
    (mode : Mode) (provider : Option String)
    (h : shouldCache message mode = false) :
    ResponseCache.get s now message mode provider = (none, s) := by
  simp [ResponseCache.get, h]

theorem set_of_not_cacheable (s : CacheState) (now : Nat) (message : String)
    (mode : Mode) (d : ChatResponse) (provider : Option String) (ttl : Option Nat)
    (h : shouldCache message mode = false) :
    ResponseCache.set s now message mode d provider ttl = s := by
  simp [ResponseCache.set, h]

theorem aliveFilter_mem (now : Nat) (store : List CacheEntry) (e : CacheEntry)
    (he : e ∈ store.filter (fun e => decide (now ≤ e.expiresAt))) :
    now ≤ e.expiresAt := by
  have := (List.mem_filter.mp he).2
  exact of_decide_eq_true this

theorem mem_cleanup_le (now : Nat) (store : List CacheEntry) :
    ∀ e ∈ cleanup now store, now ≤ e.expiresAt := by
  intro e he
  simp only [cleanup] at he
  split at he
  · have h1 : e ∈ sortByScore (store.filter (fun e => decide (now ≤ e.expiresAt))) :=
      List.mem_of_mem_drop he
    have h2 := (mem_sortKeyed ResponseCache.score _ e).mp h1
    exact aliveFilter_mem now store e h2
  · exact aliveFilter_mem now store e he

theorem cleanup_below_thresh (now : Nat) (store : List CacheEntry)
    (h : (store.filter (fun e => decide (now ≤ e.expiresAt))).length < maxEntries * 9 / 10) :
    cleanup now store = store.filter (fun e => decide (now ≤ e.expiresAt)) := by
  simp only [cleanup]
  split
  · omega
  · rfl

theorem cleanup_at_thresh (now : Nat) (store : List CacheEntry)
    (h : maxEntries * 9 / 10 ≤ (store.filter (fun e => decide (now ≤ e.expiresAt))).length) :
    cleanup now store =
      (sortByScore (store.filter (fun e => decide (now ≤ e.expiresAt)))).drop
        ((store.filter (fun e => decide (now ≤ e.expiresAt))).length / 4) := by
  simp only [cleanup]
  split
  · rfl
  · omega

theorem cleanup_length_at_thresh (now : Nat) (store : List CacheEntry)
    (h : maxEntries * 9 / 10 ≤ (store.filter (fun e => decide (now ≤ e.expiresAt))).length) :
    (cleanup now store).length =
      (store.filter (fun e => decide (now ≤ e.expiresAt))).length
        - (store.filter (fun e => decide (now ≤ e.expiresAt))).length / 4 := by
  rw [cleanup_at_thresh now store h, List.length_drop]
  unfold sortByScore
  rw [sortKeyed_length]

theorem cleanup_lowest_removed (now : Nat) (store : List CacheEntry)
    (h : maxEntries * 9 / 10 ≤ (store.filter (fun e => decide (now ≤ e.expiresAt))).length) :
    ∀ x ∈ (sortByScore (store.filter (fun e => decide (now ≤ e.expiresAt)))).take
        ((store.filter (fun e => decide (now ≤ e.expiresAt))).length / 4),
    ∀ y ∈ cleanup now store, ResponseCache.score x ≤ ResponseCache.score y := by
  rw [cleanup_at_thresh now store h]
  exact pairwise_take_drop _ (sortKeyed_sorted ResponseCache.score _) _

theorem mapSet_length_le (c : List CacheEntry) (e : CacheEntry) :
    (mapSet c e).length ≤ c.length + 1 := by
  unfold mapSet
  split
  · simp
  · simp

theorem cleanup_length_le_insert (now : Nat) (store : List CacheEntry)
    (hlen : store.length ≤ maxEntries) :
    (cleanup now store).length + 1 ≤ maxEntries := by
  have hfl : (store.filter (fun e => decide (now ≤ e.expiresAt))).length ≤ store.length :=
    List.length_filter_le _ _
  by_cases h : maxEntries * 9 / 10 ≤ (store.filter (fun e => decide (now ≤ e.expiresAt))).length
  · rw [cleanup_length_at_thresh now store h]
    have hq : maxEntries * 9 / 10 / 4
        ≤ (store.filter (fun e => decide (now ≤ e.expiresAt))).length / 4 :=
      Nat.div_le_div_right h
    simp only [maxEntries] at h hq hlen hfl ⊢
    omega
  · rw [cleanup_below_thresh now store (by omega)]
    simp only [maxEntries] at h hlen hfl ⊢
    omega

/-- Size invariant of `set`: starting at or below capacity, the store is
still at or below capacity after any insertion. -/
theorem set_length_le (s : CacheState) (now : Nat) (message : String) (mode : Mode)
    (d : ChatResponse) (provider : Option String) (ttl : Option Nat)
    (hmax : s.cache.length ≤ maxEntries) :
    (ResponseCache.set s now message mode d provider ttl).cache.length ≤ maxEntries := by
  unfold ResponseCache.set
  split
  · exact hmax
  · simp only
    by_cases hfull : maxEntries ≤ s.cache.length
    · rw [if_pos hfull]
      exact le_trans (mapSet_length_le _ _) (cleanup_length_le_insert now s.cache hmax)
    · rw [if_neg hfull]
      refine le_trans (mapSet_length_le _ _) ?_
      simp only [maxEntries] at hfull ⊢
      omega

/- ---------- Registry lemmas ---------- -/

theorem lookup_nil {α : Type} (k : String) : lookup ([] : List (String × α)) k = none := by
  simp [lookup]

theorem lookup_cons {α : Type} (p : String × α) (ps : List (String × α)) (k : String) :
    lookup (p :: ps) k = if p.1 = k then some p.2 else lookup ps k := by
  by_cases hp : p.1 = k <;> simp [lookup, List.find?_cons, hp]

theorem lookup_map_overwrite_self {α : Type} (m : List (String × α)) (k : String) (v : α)
    (hany : m.any (fun q => q.1 == k) = true) :
    lookup (m.map (fun q => if q.1 = k then (k, v) else q)) k = some v := by
  induction m with
  | nil => simp at hany
  | cons p ps ih =>
    by_cases hp : p.1 = k
    · simp [List.map_cons, lookup_cons, hp]
    · have hany2 : ps.any (fun q => q.1 == k) = true := by
        simpa [hp] using hany
      simp only [List.map_cons, if_neg hp, lookup_cons]
      exact ih hany2

theorem lookup_map_overwrite_ne {α : Type} (m : List (String × α)) (k : String) (v : α)
    (k' : String) (h : k' ≠ k) :
    lookup (m.map (fun q => if q.1 = k then (k, v) else q)) k' = lookup m k' := by
  induction m with
  | nil => simp
  | cons p ps ih =>
    by_cases hp : p.1 = k
    · have hne : ¬ ((k, v).1 = k') := fun hh => h (hh.symm)
      have hne2 : ¬ (p.1 = k') := by
        rw [hp]
        exact fun hh => h hh.symm
      simp only [List.map_cons, if_pos hp, lookup_cons]
      rw [if_neg hne, if_neg hne2]
      exact ih
    · simp only [List.map_cons, if_neg hp, lookup_cons]
      by_cases hp' : p.1 = k'
      · simp [hp']
      · rw [if_neg hp', if_neg hp']
        exact ih

theorem lookup_append_single_self {α : Type} (m : List (String × α)) (k : String) (v : α)
    (hany : m.any (fun q => q.1 == k) = false) :
    lookup (m ++ [(k, v)]) k = some v := by
  induction m with
  | nil => simp [lookup_cons]
  | cons p ps ih =>
    simp only [List.any_cons, Bool.or_eq_false_iff] at hany
    have hp : ¬ (p.1 = k) := by simpa using hany.1
    simp only [List.cons_append, lookup_cons, if_neg hp]
    exact ih hany.2

theorem lookup_append_single_ne {α : Type} (m : List (String × α)) (k : String) (v : α)
    (k' : String) (h : k' ≠ k) :
    lookup (m ++ [(k, v)]) k' = lookup m k' := by
  induction m with
  | nil =>
    have : ¬ ((k, v).1 = k') := fun hh => h hh.symm
    simp [lookup_cons, this, lookup_nil]
  | cons p ps ih =>
    by_cases hp : p.1 = k'
    · simp [List.cons_append, lookup_cons, hp]
    · simp only [List.cons_append, lookup_cons, if_neg hp]
      exact ih

theorem lookup_mapUpdate_self {α : Type} (m : List (String × α)) (k : String) (v : α) :
    lookup (mapUpdate m k v) k = some v := by
  unfold mapUpdate
  by_cases hany : m.any (fun q => q.1 == k) = true
  · rw [if_pos hany]
    exact lookup_map_overwrite_self m k v hany
  · rw [if_neg hany]
    exact lookup_append_single_self m k v (Bool.not_eq_true _ ▸ eq_false_of_ne_true hany)

theorem lookup_mapUpdate_ne {α : Type} (m : List (String × α)) (k : String) (v : α)
    (k' : String) (h : k' ≠ k) :
    lookup (mapUpdate m k v) k' = lookup m k' := by
  unfold mapUpdate
  by_cases hany : m.any (fun q => q.1 == k) = true
  · rw [if_pos hany]
    exact lookup_map_overwrite_ne m k v k' h
  · rw [if_neg hany]
    exact lookup_append_single_ne m k v k' h

theorem markUnhealthy_providers (s : RegState) (n e : String) (t : Nat) :
    (markProviderAsUnhealthy s n e t).providers = s.providers := by
  unfold markProviderAsUnhealthy
  cases h1 : lookup s.status n <;> cases h2 : lookup s.providers n <;> rfl

theorem markUnhealthy_fallbackOrder (s : RegState) (n e : String) (t : Nat) :
    (markProviderAsUnhealthy s n e t).fallbackOrder = s.fallbackOrder := by
  unfold markProviderAsUnhealthy
  cases h1 : lookup s.status n <;> cases h2 : lookup s.providers n <;> rfl

theorem markHealthy_providers (s : RegState) (n : String) (t : Nat) :
    (markProviderAsHealthy s n t).providers = s.providers := by
  unfold markProviderAsHealthy
  cases h1 : lookup s.status n <;> rfl

theorem markHealthy_fallbackOrder (s : RegState) (n : String) (t : Nat) :
    (markProviderAsHealthy s n t).fallbackOrder = s.fallbackOrder := by
  unfold markProviderAsHealthy
  cases h1 : lookup s.status n <;> rfl

theorem recovery_providers (s : RegState) (n : String) (t : Nat) (b : Bool) :
    (attemptProviderRecovery s n t b).providers = s.providers := by
  unfold attemptProviderRecovery
  cases h1 : lookup s.providers n with
  | none => rfl
  | some cfg =>
    simp only
    split
    · rfl
    · split
      · split
        · exact markHealthy_providers s n t
        · rfl
      · cases h2 : lookup s.status n with
        | none => rfl
        | some st =>
          simp only
          split
          · exact markHealthy_providers _ n t
          · rfl

theorem recovery_fallbackOrder (s : RegState) (n : String) (t : Nat) (b : Bool) :
    (attemptProviderRecovery s n t b).fallbackOrder = s.fallbackOrder := by
  unfold attemptProviderRecovery
  cases h1 : lookup s.providers n with
  | none => rfl
  | some cfg =>
    simp only
    split
    · rfl
    · split
      · split
        · exact markHealthy_fallbackOrder s n t
        · rfl
      · cases h2 : lookup s.status n with
        | none => rfl
        | some st =>
          simp only
          split
          · exact markHealthy_fallbackOrder _ n t
          · rfl

theorem applyOp_providers (s : RegState) (op : RegOp) :
    (applyOp s op).providers = s.providers := by
  cases op with
  | markUnhealthy n e t => exact markUnhealthy_providers s n e t
  | markHealthy n t => exact markHealthy_providers s n t
  | recovery n t b => exact recovery_providers s n t b

theorem applyOp_fallbackOrder (s : RegState) (op : RegOp) :
    (applyOp s op).fallbackOrder = s.fallbackOrder := by
  cases op with
  | markUnhealthy n e t => exact markUnhealthy_fallbackOrder s n e t
  | markHealthy n t => exact markHealthy_fallbackOrder s n t
  | recovery n t b => exact recovery_fallbackOrder s n t b

theorem applyOps_providers (ops : List RegOp) (s : RegState) :
    (applyOps ops s).providers = s.providers := by
  induction ops generalizing s with
  | nil => rfl
  | cons op rest ih =>
    simp only [applyOps, List.foldl_cons]
    rw [show List.foldl applyOp (applyOp s op) rest = applyOps rest (applyOp s op) from rfl]
    rw [ih (applyOp s op), applyOp_providers]

theorem applyOps_fallbackOrder (ops : List RegOp) (s : RegState) :
    (applyOps ops s).fallbackOrder = s.fallbackOrder := by
  induction ops generalizing s with
  | nil => rfl
  | cons op rest ih =>
    simp only [applyOps, List.foldl_cons]
    rw [show List.foldl applyOp (applyOp s op) rest = applyOps rest (applyOp s op) from rfl]
    rw [ih (applyOp s op), applyOp_fallbackOrder]

theorem markUnhealthy_status_self (s : RegState) (p e : String) (t : Nat)
    (st : ProviderStatus) (cfg : ProviderConfig)
    (hs : lookup s.status p = some st) (hc : lookup s.providers p = some cfg) :
    lookup (markProviderAsUnhealthy s p e t).status p =
      some ({ st with
              consecutiveFailures := st.consecutiveFailures + 1,
              lastError := some e,
              lastCheck := t,
              isHealthy := (if cfg.maxRetries ≤ st.consecutiveFailures + 1 then false
                else st.isHealthy) }) := by
  unfold markProviderAsUnhealthy
  rw [hs, hc]
  exact lookup_mapUpdate_self _ _ _

theorem markUnhealthy_status_other (s : RegState) (p e : String) (t : Nat)
    (q : String) (hq : q ≠ p) :
    lookup (markProviderAsUnhealthy s p e t).status q = lookup s.status q := by
  unfold markProviderAsUnhealthy
  cases h1 : lookup s.status p <;> cases h2 : lookup s.providers p
  · rfl
  · rfl
  · rfl
  · exact lookup_mapUpdate_ne _ _ _ _ hq

theorem markHealthy_status_self (s : RegState) (p : String) (t : Nat)
    (st : ProviderStatus) (hs : lookup s.status p = some st) :
    lookup (markProviderAsHealthy s p t).status p =
      some ({ st with
              isHealthy := true,
              lastError := none,
              lastCheck := t,
              consecutiveFailures := 0 }) := by
  unfold markProviderAsHealthy
  rw [hs]
  exact lookup_mapUpdate_self _ _ _

theorem markHealthy_status_other (s : RegState) (p : String) (t : Nat)
    (q : String) (hq : q ≠ p) :
    lookup (markProviderAsHealthy s p t).status q = lookup s.status q := by
  unfold markProviderAsHealthy
  cases h1 : lookup s.status p
  · rfl
  · exact lookup_mapUpdate_ne _ _ _ _ hq

/-- A markHealthy call never leaves a provider with isHealthy = false:
whatever record the lookup returns afterwards is healthy or untouched
with its original health. -/
theorem markHealthy_keeps_healthy (s : RegState) (p : String) (t : Nat)
    (q : String) (st st2 : ProviderStatus)
    (hs : lookup s.status q = some st)
    (h2 : lookup (markProviderAsHealthy s p t).status q = some st2)
    (hH : st.isHealthy = true) : st2.isHealthy = true := by
  by_cases hqp : q = p
  · subst hqp
    unfold markProviderAsHealthy at h2
    rw [hs] at h2
    rw [lookup_mapUpdate_self] at h2
    cases h2
    rfl
  · rw [markHealthy_status_other s p t q hqp, hs] at h2
    cases h2
    exact hH

/-- A recovery probe never makes a healthy provider unhealthy. -/
theorem recovery_keeps_healthy (s : RegState) (p : String) (t : Nat) (b : Bool)
    (q : String) (st st2 : ProviderStatus)
    (hs : lookup s.status q = some st)
    (h2 : lookup (attemptProviderRecovery s p t b).status q = some st2)
    (hH : st.isHealthy = true) : st2.isHealthy = true := by
  unfold attemptProviderRecovery at h2
  cases h1 : lookup s.providers p with
  | none =>
    rw [h1] at h2
    rw [hs] at h2
    cases h2
    exact hH
  | some cfg =>
    rw [h1] at h2
    dsimp only at h2
    by_cases hen : cfg.enabled = false
    · rw [if_pos hen] at h2
      rw [hs] at h2
      cases h2
      exact hH
    · rw [if_neg hen] at h2
      by_cases hhc : cfg.hasHealthCheck
      · rw [if_pos hhc] at h2
        cases b with
        | true =>
          simp only [if_true] at h2
          exact markHealthy_keeps_healthy s p t q st st2 hs h2 hH
        | false =>
          rw [if_neg Bool.false_ne_true] at h2
          rw [hs] at h2
          cases h2
          exact hH
      · rw [if_neg hhc] at h2
        cases h3 : lookup s.status p with
        | none =>
          rw [h3] at h2
          rw [hs] at h2
          cases h2
          exact hH
        | some stp =>
          rw [h3] at h2
          dsimp only at h2
          by_cases hqp : q = p
          · subst hqp
            rw [hs] at h3
            cases h3
            split at h2
            · exact markHealthy_keeps_healthy _ q t q
                ({ st with consecutiveFailures := st.consecutiveFailures - 2 }) st2
                (lookup_mapUpdate_self _ _ _) h2 hH
            · rw [lookup_mapUpdate_self] at h2
              cases h2
              exact hH
          · split at h2
            · refine markHealthy_keeps_healthy _ p t q st st2 ?_ h2 hH
              rw [lookup_mapUpdate_ne _ _ _ _ hqp]
              exact hs
            · rw [lookup_mapUpdate_ne _ _ _ _ hqp] at h2
              rw [hs] at h2
              cases h2
              exact hH

/-- Across any single registry operation, a provider can go from healthy
to unhealthy only through markProviderAsUnhealthy on that provider, and
only when the incremented failure count has reached its maxRetries. -/
theorem flip_requires_threshold (s : RegState) (q : String)
    (st : ProviderStatus) (cfg : ProviderConfig)
    (hs : lookup s.status q = some st) (hc : lookup s.providers q = some cfg)
    (op : RegOp) (st2 : ProviderStatus)
    (h2 : lookup (applyOp s op).status q = some st2)
    (hH : st.isHealthy = true) (hU : st2.isHealthy = false) :
    ∃ e2 t2, op = RegOp.markUnhealthy q e2 t2 ∧
      cfg.maxRetries ≤ st.consecutiveFailures + 1 := by
  cases op with
  | markHealthy n t =>
    exact absurd (markHealthy_keeps_healthy s n t q st st2 hs h2 hH)
      (by rw [hU]; exact Bool.false_ne_true)
  | recovery n t b =>
    exact absurd (recovery_keeps_healthy s n t b q st st2 hs h2 hH)
      (by rw [hU]; exact Bool.false_ne_true)
  | markUnhealthy n e t =>
    simp only [applyOp] at h2
    by_cases hqn : q = n
    · subst hqn
      cases h3 : lookup s.providers q with
      | none =>
        rw [h3] at hc
        cases hc
      | some cfg2 =>
        rw [h3] at hc
        cases hc
        rw [markUnhealthy_status_self s q e t st cfg hs h3] at h2
        cases h2
        refine ⟨e, t, rfl, ?_⟩
        by_cases hth : cfg.maxRetries ≤ st.consecutiveFailures + 1
        · exact hth
        · rw [if_neg hth] at hU
          rw [hH] at hU
          exact Bool.noConfusion hU
    · rw [markUnhealthy_status_other s n e t q hqn, hs] at h2
      cases h2
      rw [hH] at hU
      exact Bool.noConfusion hU

theorem canRetry_lt (s : RegState) (n : String) (a : Nat)
    (h : canRetryWithProvider s n a = true) : a < retriesOf s n := by
  unfold canRetryWithProvider at h
  unfold retriesOf
  cases h1 : lookup s.providers n with
  | none =>
    rw [h1] at h
    cases h2 : lookup s.status n <;> rw [h2] at h <;> cases h
  | some cfg =>
    rw [h1] at h
    cases h2 : lookup s.status n with
    | none =>
      rw [h2] at h
      cases h
    | some stt =>
      rw [h2] at h
      exact of_decide_eq_true (Bool.and_elim_left h)

/- ---------- Fallback-order scan lemmas ---------- -/

theorem bestAux_eq_find (s : RegState) (l : List String) :
    bestAux s l = l.find? (fun n => healthyAndEnabled s n) := by
  induction l with
  | nil => rfl
  | cons n rest ih =>
    simp only [bestAux, List.find?_cons]
    by_cases h : healthyAndEnabled s n
    · simp [h]
    · simp only [Bool.not_eq_true] at h
      simp [h, ih]

theorem bestAux_some (s : RegState) (l : List String) (q : String)
    (h : bestAux s l = some q) : q ∈ l ∧ healthyAndEnabled s q = true := by
  rw [bestAux_eq_find] at h
  exact ⟨List.mem_of_find?_eq_some h, List.find?_some h⟩

theorem bestAux_none (s : RegState) (l : List String) :
    bestAux s l = none ↔ ∀ n ∈ l, healthyAndEnabled s n = false := by
  rw [bestAux_eq_find, List.find?_eq_none]
  constructor
  · intro h n hn
    have := h n hn
    simpa using this
  · intro h n hn
    simp [h n hn]

theorem tailAfter_subset (l : List String) (p : String) :
    ∀ x ∈ tailAfter l p, x ∈ l := by
  induction l with
  | nil => simp [tailAfter]
  | cons y ys ih =>
    intro x hx
    simp only [tailAfter] at hx
    by_cases hy : y == p
    · rw [if_pos hy] at hx
      exact List.mem_cons_of_mem y hx
    · rw [if_neg hy] at hx
      exact List.mem_cons_of_mem y (ih x hx)

theorem tailAfter_sublist (l : List String) (p : String) :
    (tailAfter l p).Sublist l := by
  induction l with
  | nil => simp [tailAfter]
  | cons y ys ih =>
    simp only [tailAfter]
    by_cases hy : y == p
    · rw [if_pos hy]
      exact List.sublist_cons_self y ys
    · rw [if_neg hy]
      exact ih.trans (List.sublist_cons_self y ys)

/-- The code's index arithmetic in getNextProvider is exactly a healthy
and enabled scan of the elements strictly after currentProvider. -/
theorem getNextProvider_eq (s : RegState) (p : String) :
    getNextProvider s p = bestAux s (tailAfter s.fallbackOrder p) := by
  unfold getNextProvider
  generalize s.fallbackOrder = l
  induction l with
  | nil => rfl
  | cons y ys ih =>
    simp only [idxOf, tailAfter]
    by_cases hy : y == p
    · rw [if_pos hy, if_pos hy]
      simp only [List.length_cons, List.drop_succ_cons, List.drop_zero]
      by_cases hlen : ys.length + 1 ≤ 0 + 1
      · rw [if_pos hlen]
        have : ys = [] := by
          cases ys with
          | nil => rfl
          | cons a as => simp at hlen
        subst this
        rfl
      · rw [if_neg hlen]
    · rw [if_neg hy, if_neg hy]
      cases hidx : idxOf p ys with
      | none =>
        rw [hidx] at ih
        exact ih
      | some i =>
        rw [hidx] at ih
        dsimp only [Option.map] at ih ⊢
        simp only [List.length_cons, List.drop_succ_cons]
        by_cases hlen : ys.length ≤ i + 1
        · rw [if_pos (by omega : (ys.length + 1 ≤ i + 1 + 1))]
          rw [if_pos hlen] at ih
          exact ih
        · rw [if_neg (by omega : ¬ (ys.length + 1 ≤ i + 1 + 1))]
          rw [if_neg hlen] at ih
          exact ih

theorem sum_tailAfter_mem (r : String → Nat) (l : List String) (q : String) (hq : q ∈ l) :
    r q + ((tailAfter l q).map r).sum ≤ (l.map r).sum := by
  induction l with
  | nil => cases hq
  | cons z zs ih =>
    simp only [tailAfter, List.map_cons, List.sum_cons]
    by_cases hz : z == q
    · rw [if_pos hz]
      have hzq : z = q := by simpa using hz
      subst hzq
      exact Nat.le_refl _
    · rw [if_neg hz]
      have hq' : q ∈ zs := by
        rcases List.mem_cons.mp hq with h | h
        · exact absurd h.symm (by simpa using hz)
        · exact h
      have := ih hq'
      omega

theorem sum_tailAfter_chain (r : String → Nat) (l : List String) (hnd : l.Nodup)
    (p q : String) (hq : q ∈ tailAfter l p) :
    r q + ((tailAfter l q).map r).sum ≤ ((tailAfter l p).map r).sum := by
  induction l with
  | nil => cases hq
  | cons z zs ih =>
    rcases List.nodup_cons.mp hnd with ⟨hzout, hnd'⟩
    by_cases hz : z == p
    · rw [show tailAfter (z :: zs) p = zs from by simp [tailAfter, hz]] at hq ⊢
      have hzq : ¬ (z == q) := by
        intro hc
        have : z = q := by simpa using hc
        exact hzout (this ▸ hq)
      rw [show tailAfter (z :: zs) q = tailAfter zs q from by simp [tailAfter, hzq]]
      exact sum_tailAfter_mem r zs q hq
    · rw [show tailAfter (z :: zs) p = tailAfter zs p from by simp [tailAfter, hz]] at hq ⊢
      have hqzs : q ∈ zs := tailAfter_subset zs p q hq
      have hzq : ¬ (z == q) := by
        intro hc
        have : z = q := by simpa using hc
        exact hzout (this ▸ hqzs)
      rw [show tailAfter (z :: zs) q = tailAfter zs q from by simp [tailAfter, hzq]]
      exact ih hnd' hq

theorem retriesOf_congr (s s' : RegState) (h : s'.providers = s.providers) :
    retriesOf s' = retriesOf s := by
  funext n
  unfold retriesOf
  rw [h]

theorem loopMeasure_congr (s s' : RegState) (h1 : s'.providers = s.providers)
    (h2 : s'.fallbackOrder = s.fallbackOrder) (c : Option String) (a : Nat) :
    loopMeasure s' c a = loopMeasure s c a := by
  cases c with
  | none => rfl
  | some p =>
    unfold loopMeasure
    rw [retriesOf_congr s s' h1, h2]

/-- Core induction for the retry/fallback loop: under the registry
invariants, any fuel above the loop measure is enough (the fuelOut result
is unreachable), and the loop's dispatch count is bounded by the
measure. -/
theorem runLoop_spec (adapter : Adapter) (message : String) (mode : Mode) (now : Nat) :
    ∀ (fuel : Nat) (reg : RegState) (cache : ResponseCache.CacheState)
      (current : Option String) (a : Nat) (lastErr : Option String)
      (trace : List String),
      reg.fallbackOrder.Nodup →
      (∀ n ∈ reg.fallbackOrder, 1 ≤ retriesOf reg n) →
      (∀ p, current = some p → p ∈ reg.fallbackOrder ∧ a < retriesOf reg p) →
      loopMeasure reg current a < fuel →
      (runLoop fuel reg cache current a lastErr adapter message mode now trace).result
          ≠ PostResult.fuelOut ∧
      (runLoop fuel reg cache current a lastErr adapter message mode now trace).trace.length
          ≤ trace.length + loopMeasure reg current a := by
  intro fuel
  induction fuel with
  | zero =>
    intro reg cache current a lastErr trace hnd hmin hinv hfuel
    exact absurd hfuel (Nat.not_lt_zero _)
  | succ fuel' ih =>
    intro reg cache current a lastErr trace hnd hmin hinv hfuel
    cases current with
    | none =>
      simp [runLoop, exhaustedOutcome, loopMeasure]
    | some p =>
      obtain ⟨hpmem, hlt⟩ := hinv p rfl
      have hR : 1 ≤ retriesOf reg p := hmin p hpmem
      by_cases hp : p = "mock"
      · simp [runLoop, hp, exhaustedOutcome]
      · simp only [runLoop, if_neg hp]
        cases hadapt : adapter trace.length p with
        | ok resp =>
          constructor
          · simp
          · simp only [List.length_append, List.length_cons, List.length_nil, loopMeasure]
            omega
        | error e =>
          have hfb := markUnhealthy_fallbackOrder reg p e now
          have hpv := markUnhealthy_providers reg p e now
          have hre : retriesOf (markProviderAsUnhealthy reg p e now) = retriesOf reg :=
            retriesOf_congr reg _ hpv
          have hmeq : ∀ c aa, loopMeasure (markProviderAsUnhealthy reg p e now) c aa
              = loopMeasure reg c aa :=
            fun c aa => loopMeasure_congr reg _ hpv hfb c aa
          dsimp only
          by_cases hcr :
              canRetryWithProvider (markProviderAsUnhealthy reg p e now) p (a + 1) = true
          · rw [if_pos hcr]
            have hlt' : a + 1 < retriesOf reg p := by
              have := canRetry_lt _ p (a + 1) hcr
              rwa [hre] at this
            have hres := ih (markProviderAsUnhealthy reg p e now) cache (some p) (a + 1)
              (some e) (trace ++ [p])
              (by rw [hfb]; exact hnd)
              (by intro n hn; rw [hfb] at hn; rw [hre]; exact hmin n hn)
              (by
                intro p' hp'
                cases hp'
                rw [hfb, hre]
                exact ⟨hpmem, hlt'⟩)
              (by
                rw [hmeq]
                simp only [loopMeasure] at hfuel ⊢
                omega)
            refine ⟨hres.1, ?_⟩
            refine le_trans hres.2 ?_
            rw [hmeq]
            simp only [loopMeasure, List.length_append, List.length_cons, List.length_nil]
            omega
          · rw [if_neg hcr]
            cases hnext : getNextProvider (markProviderAsUnhealthy reg p e now) p with
            | none =>
              constructor
              · simp [exhaustedOutcome]
              · simp only [exhaustedOutcome, List.length_append, List.length_cons,
                  List.length_nil, loopMeasure]
                omega
            | some q =>
              have hq : q ∈ tailAfter reg.fallbackOrder p := by
                rw [getNextProvider_eq, hfb] at hnext
                exact (bestAux_some _ _ q hnext).1
              have hqmem : q ∈ reg.fallbackOrder := tailAfter_subset _ p q hq
              have hchain := sum_tailAfter_chain (retriesOf reg) reg.fallbackOrder hnd p q hq
              have hres := ih (markProviderAsUnhealthy reg p e now) cache (some q) 0
                (some e) (trace ++ [p])
                (by rw [hfb]; exact hnd)
                (by intro n hn; rw [hfb] at hn; rw [hre]; exact hmin n hn)
                (by
                  intro p' hp'
                  cases hp'
                  rw [hfb, hre]
                  exact ⟨hqmem, hmin q hqmem⟩)
                (by
                  rw [hmeq]
                  simp only [loopMeasure] at hfuel ⊢
                  omega)
              refine ⟨hres.1, ?_⟩
              refine le_trans hres.2 ?_
              rw [hmeq]
              simp only [loopMeasure, List.length_append, List.length_cons, List.length_nil]
              omega

theorem prioOf_congr (s s' : RegState) (h : s'.providers = s.providers) :
    prioOf s' = prioOf s := by
  funext n
  unfold prioOf
  rw [h]

/- The construction-time fields of the registry do not depend on the
construction timestamp, so decidable facts about them transfer from the
timestamp-zero instance. -/

theorem init_nodup (env : Env) (t0 : Nat) :
    ((initState env t0).fallbackOrder).Nodup := by
  have h : (initState env t0).fallbackOrder = (initState env 0).fallbackOrder := rfl
  rw [h]
  obtain ⟨g, t, c⟩ := env
  cases g <;> cases t <;> cases c <;> decide

theorem init_min_retries (env : Env) (t0 : Nat) :
    ∀ n ∈ (initState env t0).fallbackOrder, 1 ≤ retriesOf (initState env t0) n := by
  have h1 : (initState env t0).fallbackOrder = (initState env 0).fallbackOrder := rfl
  have h2 : retriesOf (initState env t0) = retriesOf (initState env 0) :=
    retriesOf_congr _ _ rfl
  rw [h1, h2]
  obtain ⟨g, t, c⟩ := env
  cases g <;> cases t <;> cases c <;> decide

theorem init_sorted (env : Env) (t0 : Nat) :
    ((initState env t0).fallbackOrder).Pairwise
      (fun a b => prioOf (initState env t0) a ≤ prioOf (initState env t0) b) := by
  have h1 : (initState env t0).fallbackOrder = (initState env 0).fallbackOrder := rfl
  have h2 : prioOf (initState env t0) = prioOf (initState env 0) :=
    prioOf_congr _ _ rfl
  rw [h1, h2]
  obtain ⟨g, t, c⟩ := env
  cases g <;> cases t <;> cases c <;> decide

/- ---------- Claim theorems ---------- -/

/-- Additional first-match minimality of List.find? on a pairwise-ordered
list (the relation being reflexive). -/
theorem find_min {α : Type} {R : α → α → Prop} (hrefl : ∀ a, R a a) (l : List α)
    (hp : l.Pairwise R) (pred : α → Bool) (a : α) (h : l.find? pred = some a) :
    ∀ b ∈ l, pred b = true → R a b := by
  induction l with
  | nil => simp
  | cons x xs ih =>
    rcases List.pairwise_cons.mp hp with ⟨hx, hxs⟩
    intro b hb hpredb
    rw [List.find?_cons] at h
    cases hpx : pred x with
    | true =>
      rw [hpx] at h
      simp only [if_true] at h
      injection h with hxa
      subst hxa
      rcases List.mem_cons.mp hb with hb | hb
      · subst hb
        exact hrefl b
      · exact hx b hb
    | false =>
      rw [hpx] at h
      simp only [if_false] at h
      rcases List.mem_cons.mp hb with hb | hb
      · subst hb
        rw [hpredb] at hpx
        cases hpx
      · exact ih hxs h b hb hpredb

/-- Claim C1 (code_bug evaluation): the orchestrator writes the success
into the cache scoped to the provider name ('groq') but reads with no
provider scope ('any'), so the two keys differ and the second identical
request within the TTL misses: it dispatches to the provider again
(trace = ["groq"] both times), the global hit counter stays 0 and the
miss counter reaches 2, even though the payload is stored under the
provider-scoped key. -/
theorem cacheScopeMismatch_secondRequestMisses :
    firstOutcome.result = PostResult.success groqResponse ∧
    firstOutcome.trace = ["groq"] ∧
    secondOutcome.trace = ["groq"] ∧
    secondOutcome.cache.hitCount = 0 ∧
    secondOutcome.cache.missCount = 2 ∧
    (ResponseCache.mapFind firstOutcome.cache.cache
      (ResponseCache.generateCacheKey "hello world" Mode.fast (some "groq"))).isSome = true ∧
    ResponseCache.generateCacheKey "hello world" Mode.fast (some "groq") ≠
      ResponseCache.generateCacheKey "hello world" Mode.fast none := by
  refine ⟨rfl, rfl, rfl, rfl, rfl, rfl, ?_⟩
  decide

/-- Claim C2: with exactly two enabled healthy providers
X(priority 1, maxRetries 2) and Y(priority 2, maxRetries 1) and every
dispatch failing (with arbitrary error messages), the orchestrator makes
two attempts against X, switches to Y, makes one attempt against Y, and
terminates in the exhausted-providers 503 whose snapshot lists X
(2 consecutive failures) and Y (1 failure) both unhealthy — not a
fabricated answer. -/
theorem scenarioA_exhaustsBothProviders (e1 e2 e3 : String) :
    (scenarioAOutcome e1 e2 e3).trace = ["X", "X", "Y"] ∧
    (scenarioAOutcome e1 e2 e3).result = PostResult.exhausted (some e3)
      [{ name := "X", isHealthy := false, lastError := some e2, lastCheck := 50,
         consecutiveFailures := 2 },
       { name := "Y", isHealthy := false, lastError := some e3, lastCheck := 50,
         consecutiveFailures := 1 }] := by
  constructor
  · rfl
  · rfl

/-- Claim C3 (code_bug evaluation): the current getBestAvailableProvider
is the first healthy-and-enabled scan of fallbackOrder and returns none
at the state reached by reporting maxRetries-many failures for every
enabled provider, while the stale second revision in the same file
returns the disabled placeholder name 'mock' at that very state. -/
theorem bestAvailable_null_vs_mock :
    (∀ s : RegState, getBestAvailableProvider s =
      s.fallbackOrder.find? (fun n => healthyAndEnabled s n)) ∧
    (∀ n ∈ regDead.fallbackOrder, healthyAndEnabled regDead n = false) ∧
    getBestAvailableProvider regDead = none ∧
    getBestAvailableProviderV2 regDead = "mock" := by
  refine ⟨fun s => bestAux_eq_find s s.fallbackOrder, ?_, rfl, rfl⟩
  decide

/-- Claim C4 (counterexample): shouldCache accepts the English message
"what time is it now?" in both modes — it matches none of the
Russian-language volatile patterns — so the claim that it is never
cached is false. -/
theorem whatTimeIsItNow_isCacheable_cex :
    ResponseCache.shouldCache "what time is it now?" Mode.fast = true ∧
    ResponseCache.shouldCache "what time is it now?" Mode.deep = true := by
  constructor
  · rfl
  · rfl

/-- Claim C4 (amended): the volatile-content patterns are Russian, so it
is the Russian relative-time message "сколько сейчас времени?" that is
never cached in either mode — shouldCache rejects it, get misses leaving
the state untouched, set stores nothing — while the English
"what time is it now?" is cacheable. -/
theorem volatilePatterns_russian_amended (mode : Mode) (s : CacheState) (now : Nat)
    (provider provider2 : Option String) (d : ChatResponse) (ttl : Option Nat) :
    ResponseCache.shouldCache "сколько сейчас времени?" mode = false ∧
    ResponseCache.get s now "сколько сейчас времени?" mode provider = (none, s) ∧
    ResponseCache.set s now "сколько сейчас времени?" mode d provider2 ttl = s ∧
    ResponseCache.shouldCache "what time is it now?" mode = true := by
  have h : ResponseCache.shouldCache "сколько сейчас времени?" mode = false := by
    cases mode <;> rfl
  exact ⟨h, get_of_not_cacheable s now _ mode provider h,
    set_of_not_cacheable s now _ mode d provider2 ttl h,
    by cases mode <;> rfl⟩

/-- Claim C5 (counterexample): with the store exactly at maxEntries so
that set triggers eviction at now = 100, the entry k101 whose expiresAt
equals now (expiresAt ≤ now, "expired" in the claim's words) survives the
eviction and is still in the store after set completes — the code only
deletes entries with expiresAt strictly below now. -/
theorem evictionBoundary_cex :
    bigState.cache.length = ResponseCache.maxEntries ∧
    (ResponseCache.set bigState 100 "fresh message" Mode.fast cexResponse
        (some "groq") none).cache.any
      (fun e => e.key == "k101" && decide (e.expiresAt ≤ 100)) = true := by
  constructor
  · rfl
  · rfl

/-- Claim C5 (amended): eviction first removes every entry whose
expiresAt is strictly below now (every survivor satisfies
now ≤ expiresAt); score-based eviction runs only when the survivors still
fill at least 90% of capacity, and then removes exactly
floor(length / 4) entries, all of score no larger than any survivor's;
and after any set on a store at or below the configured maximum, the
store is still at or below the maximum. -/
theorem eviction_structure_amended (now : Nat) (store : List CacheEntry)
    (s : CacheState) (message : String) (mode : Mode) (d : ChatResponse)
    (provider : Option String) (ttl : Option Nat)
    (hmax : s.cache.length ≤ ResponseCache.maxEntries) :
    (∀ e ∈ ResponseCache.cleanup now store, now ≤ e.expiresAt) ∧
    ((store.filter (fun e => decide (now ≤ e.expiresAt))).length <
        ResponseCache.maxEntries * 9 / 10 →
      ResponseCache.cleanup now store = store.filter (fun e => decide (now ≤ e.expiresAt))) ∧
    (ResponseCache.maxEntries * 9 / 10 ≤
        (store.filter (fun e => decide (now ≤ e.expiresAt))).length →
      (ResponseCache.cleanup now store).length =
        (store.filter (fun e => decide (now ≤ e.expiresAt))).length -
          (store.filter (fun e => decide (now ≤ e.expiresAt))).length / 4 ∧
      ∀ x ∈ (ResponseCache.sortByScore
            (store.filter (fun e => decide (now ≤ e.expiresAt)))).take
            ((store.filter (fun e => decide (now ≤ e.expiresAt))).length / 4),
        ∀ y ∈ ResponseCache.cleanup now store,
          ResponseCache.score x ≤ ResponseCache.score y) ∧
    (ResponseCache.set s now message mode d provider ttl).cache.length ≤
      ResponseCache.maxEntries :=
  ⟨mem_cleanup_le now store,
   cleanup_below_thresh now store,
   fun h => ⟨cleanup_length_at_thresh now store h, cleanup_lowest_removed now store h⟩,
   set_length_le s now message mode d provider ttl hmax⟩

/-- Witness for the amended C5 statement at a concrete small state. -/
theorem eviction_structure_amended_witness :
    ResponseCache.emptyCache.cache.length ≤ ResponseCache.maxEntries ∧
    (ResponseCache.set ResponseCache.emptyCache 5 "hello world" Mode.fast cexResponse
        none none).cache.length ≤ ResponseCache.maxEntries ∧
    (∀ e ∈ ResponseCache.cleanup 5 ([] : List CacheEntry), 5 ≤ e.expiresAt) := by
  have h := eviction_structure_amended 5 [] ResponseCache.emptyCache "hello world"
    Mode.fast cexResponse none none (by decide)
  exact ⟨by decide, h.2.2.2, h.1⟩

/-- Claim C6: in any state reached from the initial all-healthy registry
by a sequence of operations, markProviderAsUnhealthy increments
consecutiveFailures and records lastError and the check time on every
call; it leaves the health flag untouched below the maxRetries threshold;
and across any single operation a provider's isHealthy can go from true
to false only through markProviderAsUnhealthy on that provider with the
incremented count at or above its maxRetries. -/
theorem healthFlip_only_at_threshold (env : Env) (t0 : Nat) (ops : List RegOp)
    (q e : String) (t : Nat) (st : ProviderStatus) (cfg : ProviderConfig)
    (hs : lookup (applyOps ops (initState env t0)).status q = some st)
    (hc : lookup (applyOps ops (initState env t0)).providers q = some cfg) :
    (lookup (markProviderAsUnhealthy (applyOps ops (initState env t0)) q e t).status q =
      some ({ st with
              consecutiveFailures := st.consecutiveFailures + 1,
              lastError := some e,
              lastCheck := t,
              isHealthy := (if cfg.maxRetries ≤ st.consecutiveFailures + 1 then false
                else st.isHealthy) })) ∧
    (st.consecutiveFailures + 1 < cfg.maxRetries →
      ∃ st', lookup (markProviderAsUnhealthy (applyOps ops (initState env t0)) q e t).status q
          = some st' ∧ st'.isHealthy = st.isHealthy) ∧
    (∀ (op : RegOp) (st2 : ProviderStatus),
      lookup (applyOp (applyOps ops (initState env t0)) op).status q = some st2 →
      st.isHealthy = true → st2.isHealthy = false →
      ∃ e2 t2, op = RegOp.markUnhealthy q e2 t2 ∧
        cfg.maxRetries ≤ st.consecutiveFailures + 1) := by
  refine ⟨markUnhealthy_status_self _ q e t st cfg hs hc, ?_, ?_⟩
  · intro hth
    refine ⟨_, markUnhealthy_status_self _ q e t st cfg hs hc, ?_⟩
    simp only
    rw [if_neg (by omega)]
  · intro op st2 h2 hH hU
    exact flip_requires_threshold _ q st cfg hs hc op st2 h2 hH hU

/-- Witness for C6 at the initial registry: one failure report flips
ollama (maxRetries 1) to unhealthy with its error and time recorded. -/
theorem healthFlip_only_at_threshold_witness :
    lookup (markProviderAsUnhealthy (applyOps [] (initState envAll 0))
        "ollama" "err" 7).status "ollama" =
      some { name := "ollama", isHealthy := false, lastError := some "err",
             lastCheck := 7, consecutiveFailures := 1 } := by
  have h := healthFlip_only_at_threshold envAll 0 [] "ollama" "err" 7
    { name := "ollama", isHealthy := true, lastError := none, lastCheck := 0,
      consecutiveFailures := 0 }
    { name := "ollama", priority := 5, enabled := true, maxRetries := 1,
      timeout := 120000, hasHealthCheck := false }
    (by rfl) (by rfl)
  exact h.1

/-- Claim C7: in any reachable registry state, getNextProvider on a
member p of fallbackOrder is exactly the first healthy-and-enabled scan
of the entries strictly after p; a returned q is healthy and enabled and
of minimal priority among the healthy-and-enabled entries after p
(fallbackOrder being priority-sorted from construction); and none is
returned exactly when no entry after p is healthy and enabled. -/
theorem nextProvider_scan_spec (env : Env) (t0 : Nat) (ops : List RegOp) (p : String)
    (hp : p ∈ (applyOps ops (initState env t0)).fallbackOrder) :
    (getNextProvider (applyOps ops (initState env t0)) p =
      (tailAfter (applyOps ops (initState env t0)).fallbackOrder p).find?
        (fun n => healthyAndEnabled (applyOps ops (initState env t0)) n)) ∧
    (∀ q, getNextProvider (applyOps ops (initState env t0)) p = some q →
      healthyAndEnabled (applyOps ops (initState env t0)) q = true ∧
      q ∈ tailAfter (applyOps ops (initState env t0)).fallbackOrder p ∧
      ∀ q' ∈ tailAfter (applyOps ops (initState env t0)).fallbackOrder p,
        healthyAndEnabled (applyOps ops (initState env t0)) q' = true →
        prioOf (applyOps ops (initState env t0)) q ≤
          prioOf (applyOps ops (initState env t0)) q') ∧
    (getNextProvider (applyOps ops (initState env t0)) p = none ↔
      ∀ q ∈ tailAfter (applyOps ops (initState env t0)).fallbackOrder p,
        healthyAndEnabled (applyOps ops (initState env t0)) q = false) := by
  have hfb : (applyOps ops (initState env t0)).fallbackOrder
      = (initState env t0).fallbackOrder := applyOps_fallbackOrder ops _
  have hpr : prioOf (applyOps ops (initState env t0)) = prioOf (initState env t0) :=
    prioOf_congr _ _ (applyOps_providers ops _)
  have hsorted : ((applyOps ops (initState env t0)).fallbackOrder).Pairwise
      (fun a b => prioOf (applyOps ops (initState env t0)) a ≤
        prioOf (applyOps ops (initState env t0)) b) := by
    rw [hfb, hpr]
    exact init_sorted env t0
  have htail : ((tailAfter (applyOps ops (initState env t0)).fallbackOrder p)).Pairwise
      (fun a b => prioOf (applyOps ops (initState env t0)) a ≤
        prioOf (applyOps ops (initState env t0)) b) :=
    hsorted.sublist (tailAfter_sublist _ p)
  refine ⟨?_, ?_, ?_⟩
  · rw [getNextProvider_eq, bestAux_eq_find]
  · intro q hq
    rw [getNextProvider_eq] at hq
    obtain ⟨hqmem, hqok⟩ := bestAux_some _ _ q hq
    refine ⟨hqok, hqmem, ?_⟩
    intro q' hq' hok'
    rw [bestAux_eq_find] at hq
    exact @find_min String
      (fun a b => prioOf (applyOps ops (initState env t0)) a ≤
        prioOf (applyOps ops (initState env t0)) b)
      (fun a => Nat.le_refl _) _ htail _ q hq q' hq' hok'
  · rw [getNextProvider_eq]
    exact bestAux_none _ _

/-- Witness for C7 at the fully-enabled initial registry with p = groq. -/
theorem nextProvider_scan_spec_witness :
    "groq" ∈ (applyOps [] (initState envAll 0)).fallbackOrder ∧
    getNextProvider (applyOps [] (initState envAll 0)) "groq" =
      (tailAfter (applyOps [] (initState envAll 0)).fallbackOrder "groq").find?
        (fun n => healthyAndEnabled (applyOps [] (initState envAll 0)) n) := by
  refine ⟨by decide, ?_⟩
  exact (nextProvider_scan_spec envAll 0 [] "groq" (by decide)).1

/-- Claim C8: a message that is empty or whitespace-only (trims to the
empty string) makes POST return the validation error immediately, with
the registry and the cache states returned unchanged and no dispatch
attempt made — the retry machinery is never entered. -/
theorem emptyMessage_validationError (fuel : Nat) (reg : RegState)
    (cache : CacheState) (adapter : Adapter) (message : String) (mode : Mode) (now : Nat)
    (h : jsTrim message = "") :
    runPost fuel reg cache adapter message mode now =
      { result := PostResult.validationError "Сообщение не может быть пустым",
        reg := reg, cache := cache, trace := [] } := by
  unfold runPost
  rw [h]
  simp

/-- Witness for C8 on the whitespace-only message. -/
theorem emptyMessage_validationError_witness :
    jsTrim "  " = "" ∧
    runPost 16 reg0 ResponseCache.emptyCache alwaysFail "  " Mode.fast 3 =
      { result := PostResult.validationError "Сообщение не может быть пустым",
        reg := reg0, cache := ResponseCache.emptyCache, trace := [] } := by
  refine ⟨by decide, ?_⟩
  exact emptyMessage_validationError 16 reg0 ResponseCache.emptyCache alwaysFail
    "  " Mode.fast 3 (by decide)

/-- Claim C9: for every adapter behaviour, every request and every
reachable registry state, giving the loop the sufficient fuel (one more
than the sum of maxRetries over the fallback order) never exhausts it —
the while loop terminates — and the number of dispatch attempts is
bounded by that sum of per-provider maxRetries. -/
theorem orchestrator_terminates_bounded (env : Env) (t0 : Nat) (ops : List RegOp)
    (fuel : Nat) (cache : CacheState) (adapter : Adapter) (message : String)
    (mode : Mode) (now : Nat)
    (hfuel : sufficientFuel (applyOps ops (initState env t0)) ≤ fuel) :
    (runPost fuel (applyOps ops (initState env t0)) cache adapter message mode now).result
        ≠ PostResult.fuelOut ∧
    (runPost fuel (applyOps ops (initState env t0)) cache adapter message mode now).trace.length
        ≤ ((applyOps ops (initState env t0)).fallbackOrder.map
            (retriesOf (applyOps ops (initState env t0)))).sum := by
  have hfb := applyOps_fallbackOrder ops (initState env t0)
  have hre : retriesOf (applyOps ops (initState env t0)) = retriesOf (initState env t0) :=
    retriesOf_congr _ _ (applyOps_providers ops _)
  have hnd : ((applyOps ops (initState env t0)).fallbackOrder).Nodup := by
    rw [hfb]
    exact init_nodup env t0
  have hmin : ∀ n ∈ (applyOps ops (initState env t0)).fallbackOrder,
      1 ≤ retriesOf (applyOps ops (initState env t0)) n := by
    intro n hn
    rw [hfb] at hn
    rw [hre]
    exact init_min_retries env t0 n hn
  have hinv : ∀ p, getBestAvailableProvider (applyOps ops (initState env t0)) = some p →
      p ∈ (applyOps ops (initState env t0)).fallbackOrder ∧
      0 < retriesOf (applyOps ops (initState env t0)) p := by
    intro p hp
    obtain ⟨hmem, _⟩ := bestAux_some _ _ p hp
    exact ⟨hmem, hmin p hmem⟩
  have hm : loopMeasure (applyOps ops (initState env t0))
      (getBestAvailableProvider (applyOps ops (initState env t0))) 0
      ≤ ((applyOps ops (initState env t0)).fallbackOrder.map
          (retriesOf (applyOps ops (initState env t0)))).sum := by
    cases hbest : getBestAvailableProvider (applyOps ops (initState env t0)) with
    | none => simp [loopMeasure]
    | some p =>
      obtain ⟨hmem, _⟩ := bestAux_some _ _ p hbest
      have := sum_tailAfter_mem (retriesOf (applyOps ops (initState env t0)))
        (applyOps ops (initState env t0)).fallbackOrder p hmem
      simp only [loopMeasure]
      omega
  have hflt : loopMeasure (applyOps ops (initState env t0))
      (getBestAvailableProvider (applyOps ops (initState env t0))) 0 < fuel := by
    unfold sufficientFuel at hfuel
    omega
  unfold runPost
  split
  · exact ⟨by simp, by simp⟩
  · split
    · exact ⟨by simp, by simp⟩
    · rename_i cache' heq
      have hspec := runLoop_spec adapter message mode now fuel
        (applyOps ops (initState env t0)) cache'
        (getBestAvailableProvider (applyOps ops (initState env t0))) 0 none []
        hnd hmin hinv hflt
      refine ⟨hspec.1, ?_⟩
      refine le_trans hspec.2 ?_
      simpa using hm

/-- Witness for C9: the fully-enabled fresh registry, an always-failing
adapter and fuel 16 = sufficient fuel. -/
theorem orchestrator_terminates_bounded_witness :
    sufficientFuel (applyOps [] (initState envAll 0)) ≤ 16 ∧
    (runPost 16 (applyOps [] (initState envAll 0)) ResponseCache.emptyCache alwaysFail
        "hello world" Mode.fast 5).result ≠ PostResult.fuelOut := by
  refine ⟨by decide, ?_⟩
  exact (orchestrator_terminates_bounded envAll 0 [] 16 ResponseCache.emptyCache
    alwaysFail "hello world" Mode.fast 5 (by decide)).1

/-- Claim C10: when shouldCache rejects a message, get is a miss that
returns the state unchanged (both counters and the store untouched), set
returns the state unchanged, and consequently the derived CacheStats
after either operation equal the ones before. -/
theorem nonCacheable_requests_frame (s : CacheState) (now : Nat) (message : String)
    (mode : Mode) (provider provider2 : Option String) (d : ChatResponse) (ttl : Option Nat)
    (h : ResponseCache.shouldCache message mode = false) :
    ResponseCache.get s now message mode provider = (none, s) ∧
    ResponseCache.set s now message mode d provider2 ttl = s ∧
    ResponseCache.getStats (ResponseCache.set s now message mode d provider2 ttl) =
      ResponseCache.getStats s ∧
    ResponseCache.getStats (ResponseCache.get s now message mode provider).2 =
      ResponseCache.getStats s := by
  have h1 := get_of_not_cacheable s now message mode provider h
  have h2 := set_of_not_cacheable s now message mode d provider2 ttl h
  exact ⟨h1, h2, by rw [h2], by rw [h1]⟩

/-- Witness for C10 on the too-short message "hi". -/
theorem nonCacheable_requests_frame_witness :
    ResponseCache.shouldCache "hi" Mode.fast = false ∧
    ResponseCache.get ResponseCache.emptyCache 0 "hi" Mode.fast none =
      (none, ResponseCache.emptyCache) := by
  refine ⟨by decide, ?_⟩
  exact (nonCacheable_requests_frame ResponseCache.emptyCache 0 "hi" Mode.fast
    none none cexResponse none (by decide)).1
